import Mathlib

/-!
# Verification of the store-rating backend's rating subsystem

Shallow embedding of the rating aggregation and consistency subsystem of the
store-rating web service (Express + PostgreSQL).  The relational state is a
record of lists (`DB`); each SQL statement of the source is translated into a
pure function on that state:

* `createRating`, `updateRating`, `deleteRating` embed the transactional
  rating model (the `rating.model.js` functions): upsert / update / delete of
  a rating row followed by recomputation of the owning store's derived
  `average_rating` / `rating_count` columns inside the same transaction.
* `getRatingsByStoreId`, `getStoreRatings`, `getStoreById` embed the read
  queries (joins, `ORDER BY`, `COALESCE(AVG(..),0)`, `COUNT(..)`).
* `ratingsPostHandler`, `storeRateHandler`, `apiRatingsPost`,
  `routeGetStoreById`, `apiAuthRegister`, `routeAuthRegister` embed the HTTP
  route handlers (validation order, status codes, response messages).

Timestamps are a logical clock `DB.now`; `NOW()` inside a transaction reads
the clock, and each committed write advances it.  SQL `numeric` averages are
embedded as exact rationals.
-/

namespace StoreRating

/-- A row of the `users` table (`id, name, email, password, address, role`).
The bcrypt hash of the password is an external collaborator; the column just
stores an opaque credential string. -/
structure UserRow where
  id : Nat
  name : String
  email : String
  password : String
  address : Option String
  role : String
  deriving Repr, DecidableEq

/-- A row of the `stores` table together with the derived columns
`average_rating` / `rating_count` maintained by the rating model
(`UPDATE stores SET average_rating = .., rating_count = ..`).  A SQL `NULL`
average is `none`. -/
structure StoreRow where
  id : Nat
  name : String
  email : String
  address : Option String
  ownerId : Option Nat
  averageRating : Option ℚ
  ratingCount : Nat
  updatedAt : Nat
  deriving Repr, DecidableEq

/-- A row of the `ratings` table
(`id, user_id, store_id, rating, comment, created_at, updated_at`). -/
structure RatingRow where
  id : Nat
  userId : Nat
  storeId : Nat
  rating : Nat
  comment : Option String
  createdAt : Nat
  updatedAt : Nat
  deriving Repr, DecidableEq

/-- The datastore: the three relations, the `SERIAL` id counters, and a
logical clock supplying `NOW()`. -/
structure DB where
  users : List UserRow
  stores : List StoreRow
  ratings : List RatingRow
  nextUserId : Nat
  nextRatingId : Nat
  now : Nat
  deriving Repr, DecidableEq

/-- `SELECT * FROM ratings WHERE store_id = $1`. -/
def ratingsForStore (db : DB) (storeId : Nat) : List RatingRow :=
  db.ratings.filter (fun r => r.storeId == storeId)

/-- `SELECT * FROM ratings WHERE store_id = $1 AND user_id = $2` (all rows). -/
def rowsForPair (db : DB) (storeId userId : Nat) : List RatingRow :=
  db.ratings.filter (fun r => r.storeId == storeId && r.userId == userId)

/-- `SELECT id FROM ratings WHERE store_id = $1 AND user_id = $2` (first row). -/
def findRatingByStoreUser (db : DB) (storeId userId : Nat) : Option RatingRow :=
  db.ratings.find? (fun r => r.storeId == storeId && r.userId == userId)

/-- SQL `AVG` over a list of integer values: `NULL` (`none`) on the empty
set, otherwise the exact rational mean. -/
def sqlAvg (vals : List Nat) : Option ℚ :=
  if vals.length = 0 then none else some ((vals.sum : ℚ) / (vals.length : ℚ))

/-- `SELECT AVG(rating) FROM ratings WHERE store_id = $1`. -/
def storeAvgOf (db : DB) (storeId : Nat) : Option ℚ :=
  sqlAvg ((ratingsForStore db storeId).map (fun r => r.rating))

/-- `SELECT COUNT(*) FROM ratings WHERE store_id = $1`. -/
def storeCountOf (db : DB) (storeId : Nat) : Nat :=
  (ratingsForStore db storeId).length

/-- `createRating`'s aggregate statement: `UPDATE stores SET average_rating =
(SELECT AVG(rating) ..), rating_count = (SELECT COUNT(*) ..), updated_at =
NOW() WHERE id = $1`, executed against the transaction state `db`. -/
def storeAggAfterUpsert (db : DB) (storeId : Nat) : DB :=
  { db with stores := db.stores.map (fun s =>
      if s.id == storeId then
        { s with averageRating := storeAvgOf db storeId,
                 ratingCount := storeCountOf db storeId,
                 updatedAt := db.now }
      else s) }

/-- `updateRating`'s aggregate statement: like `storeAggAfterUpsert` but it
only recomputes `average_rating` (the row count is unchanged by an update). -/
def storeAvgOnlyUpdate (db : DB) (storeId : Nat) : DB :=
  { db with stores := db.stores.map (fun s =>
      if s.id == storeId then
        { s with averageRating := storeAvgOf db storeId,
                 updatedAt := db.now }
      else s) }

/-- `deleteRating`'s aggregate statement: `UPDATE stores SET average_rating =
COALESCE((SELECT AVG(rating) ..), 0), rating_count = (SELECT COUNT(*) ..),
updated_at = NOW() WHERE id = $1`. -/
def storeAggAfterDelete (db : DB) (storeId : Nat) : DB :=
  { db with stores := db.stores.map (fun s =>
      if s.id == storeId then
        { s with averageRating := some ((storeAvgOf db storeId).getD 0),
                 ratingCount := storeCountOf db storeId,
                 updatedAt := db.now }
      else s) }

/-- Row transformer of `UPDATE ratings SET rating = $1, comment = $2,
updated_at = NOW() WHERE store_id = $3 AND user_id = $4`. -/
def upsertFun (storeId userId value : Nat) (comment : Option String)
    (now : Nat) (r : RatingRow) : RatingRow :=
  if r.storeId == storeId && r.userId == userId then
    { r with rating := value, comment := comment, updatedAt := now }
  else r

/-- `UPDATE ratings SET rating = $1, comment = $2, updated_at = NOW()
WHERE store_id = $3 AND user_id = $4`. -/
def upsertRatingRows (rows : List RatingRow) (storeId userId value : Nat)
    (comment : Option String) (now : Nat) : List RatingRow :=
  rows.map (upsertFun storeId userId value comment now)

/-- Row transformer of `UPDATE ratings SET rating = $1, comment = $2,
updated_at = NOW() WHERE id = $3`. -/
def updateByIdFun (id value : Nat) (comment : Option String) (now : Nat)
    (r : RatingRow) : RatingRow :=
  if r.id == id then
    { r with rating := value, comment := comment, updatedAt := now }
  else r

/-- The fresh row produced by `INSERT INTO ratings (store_id, user_id,
rating, comment) VALUES ($1, $2, $3, $4) RETURNING ..` (`SERIAL` id,
`created_at`/`updated_at` defaulting to the current time). -/
def insertedRow (db : DB) (store_id user_id value : Nat)
    (comment : Option String) : RatingRow :=
  { id := db.nextRatingId, userId := user_id, storeId := store_id,
    rating := value, comment := comment, createdAt := db.now, updatedAt := db.now }

/-- `rating.model.js` `createRating`: one transaction that (1) looks up an
existing rating for `(store_id, user_id)`, (2) updates it in place or inserts
a fresh row, (3) recomputes the store's aggregate columns, then commits.
Returns the `RETURNING` row and the committed state. -/
def createRating (db : DB) (store_id user_id value : Nat)
    (comment : Option String) : RatingRow × DB :=
  match findRatingByStoreUser db store_id user_id with
  | some r0 =>
      let row := { r0 with rating := value, comment := comment, updatedAt := db.now }
      let db1 := { db with ratings := upsertRatingRows db.ratings store_id user_id value comment db.now }
      let db2 := storeAggAfterUpsert db1 store_id
      (row, { db2 with now := db.now + 1 })
  | none =>
      let row := insertedRow db store_id user_id value comment
      let db1 := { db with ratings := db.ratings ++ [row], nextRatingId := db.nextRatingId + 1 }
      let db2 := storeAggAfterUpsert db1 store_id
      (row, { db2 with now := db.now + 1 })

/-- `rating.model.js` `updateRating`: transaction that looks the rating up by
id (`ROLLBACK` and `null` if absent), updates it, and recomputes the store's
`average_rating` only. -/
def updateRating (db : DB) (id value : Nat) (comment : Option String) :
    Option RatingRow × DB :=
  match db.ratings.find? (fun r => r.id == id) with
  | none => (none, db)
  | some r0 =>
      let row := { r0 with rating := value, comment := comment, updatedAt := db.now }
      let db1 := { db with ratings := db.ratings.map (updateByIdFun id value comment db.now) }
      let db2 := storeAvgOnlyUpdate db1 r0.storeId
      (some row, { db2 with now := db.now + 1 })

/-- `rating.model.js` `deleteRating`: transaction that looks the rating up by
id (`ROLLBACK` and `null` if absent), deletes it, and recomputes the store's
aggregate with `COALESCE(AVG(rating), 0)`. -/
def deleteRating (db : DB) (id : Nat) : Option RatingRow × DB :=
  match db.ratings.find? (fun r => r.id == id) with
  | none => (none, db)
  | some r0 =>
      let db1 := { db with ratings := db.ratings.filter (fun r => !(r.id == id)) }
      let db2 := storeAggAfterDelete db1 r0.storeId
      (some r0, { db2 with now := db.now + 1 })

/-- `SELECT .. FROM users WHERE id = $1` (primary-key lookup). -/
def lookupUser (db : DB) (userId : Nat) : Option UserRow :=
  db.users.find? (fun u => u.id == userId)

/-- `SELECT .. FROM stores WHERE id = $1` (primary-key lookup). -/
def lookupStore (db : DB) (storeId : Nat) : Option StoreRow :=
  db.stores.find? (fun s => s.id == storeId)

/-- Row shape produced by `rating.model.js` `getRatingsByStoreId`
(rating columns plus the rater's `u.name as user_name`). -/
structure StoreRatingEntry where
  id : Nat
  storeId : Nat
  userId : Nat
  userName : String
  rating : Nat
  comment : Option String
  createdAt : Nat
  updatedAt : Nat
  deriving Repr, DecidableEq

/-- `rating.model.js` `getRatingsByStoreId`: ratings of a store joined with
`users` on the rater's primary key, `ORDER BY r.updated_at DESC`. -/
def getRatingsByStoreId (db : DB) (storeId : Nat) : List StoreRatingEntry :=
  List.insertionSort (fun a b => b.updatedAt ≤ a.updatedAt)
    ((db.ratings.filter (fun r => r.storeId == storeId)).filterMap (fun r =>
      (lookupUser db r.userId).map (fun u =>
        { id := r.id, storeId := r.storeId, userId := r.userId, userName := u.name,
          rating := r.rating, comment := r.comment,
          createdAt := r.createdAt, updatedAt := r.updatedAt })))

/-- Row shape produced by `store.model.js` `getStoreRatings`
(no comment column in its projection). -/
structure StoreRatingsViewEntry where
  id : Nat
  userId : Nat
  userName : String
  rating : Nat
  createdAt : Nat
  updatedAt : Nat
  deriving Repr, DecidableEq

/-- `store.model.js` `getStoreRatings`: ratings of a store joined with
`users`, `ORDER BY r.created_at DESC`. -/
def getStoreRatings (db : DB) (storeId : Nat) : List StoreRatingsViewEntry :=
  List.insertionSort (fun a b => b.createdAt ≤ a.createdAt)
    ((db.ratings.filter (fun r => r.storeId == storeId)).filterMap (fun r =>
      (lookupUser db r.userId).map (fun u =>
        { id := r.id, userId := r.userId, userName := u.name,
          rating := r.rating, createdAt := r.createdAt, updatedAt := r.updatedAt })))

/-- The store view assembled by `store.model.js` `getStoreById`:
store columns, the owner's name via `LEFT JOIN users`, and the aggregates
`COALESCE(AVG(r.rating), 0)` / `COUNT(r.id)` computed on read. -/
structure StoreView where
  id : Nat
  name : String
  email : String
  address : Option String
  ownerId : Option Nat
  ownerName : Option String
  averageRating : ℚ
  totalRatings : Nat
  deriving Repr, DecidableEq

/-- `store.model.js` `getStoreById`: `null` when no store row matches,
otherwise one grouped row whose aggregates are computed by the single query
itself (never stored columns). -/
def getStoreById (db : DB) (storeId : Nat) : Option StoreView :=
  match lookupStore db storeId with
  | none => none
  | some s => some
      { id := s.id, name := s.name, email := s.email, address := s.address,
        ownerId := s.ownerId,
        ownerName := (s.ownerId.bind (fun oid => lookupUser db oid)).map (fun u => u.name),
        averageRating := (storeAvgOf db storeId).getD 0,
        totalRatings := storeCountOf db storeId }

/-- `store.routes.js` `GET /:id`: 404 when `getStoreById` returns `null`.
When the store exists the handler then calls
`ratingModel.getRatingByUserAndStore`, a function `rating.model.js` does not
export; the call throws a `TypeError` which the catch block turns into a 500
response.  The result is the HTTP status code. -/
def routeGetStoreById (db : DB) (storeId : Nat) : Nat :=
  match getStoreById db storeId with
  | none => 404
  | some _ => 500

/-- A JavaScript request-body number: either an integer or a non-integer
number such as `3.5` (`Number.isInteger` false). -/
inductive JsNum where
  | int (n : Int)
  | nonint
  deriving Repr, DecidableEq

/-- JavaScript truthiness of a possibly-missing number: `undefined` and `0`
are falsy. -/
def jsNumFalsy : Option JsNum → Bool
  | none => true
  | some (.int n) => n == 0
  | some .nonint => false

/-- JavaScript truthiness of a possibly-missing id. -/
def jsNatFalsy : Option Nat → Bool
  | none => true
  | some n => n == 0

/-- `express-validator` `check("rating").isInt({ min: 1, max: 5 })`. -/
def isValidRatingValue : Option JsNum → Bool
  | some (.int n) => 1 ≤ n && n ≤ 5
  | _ => false

/-- An HTTP response: status code, JSON `message`, and the returned rating
row when one is sent back. -/
structure ApiResp where
  status : Nat
  message : String
  rating : Option RatingRow
  deriving Repr, DecidableEq

/-- `ratings.routes.js` `POST /`: validator errors give 400, a missing store
404; otherwise the handler looks for the user's existing rating (via the
`getRatingsByStoreId` fallback, since `getRatingByUserAndStore` is not
exported) and calls `updateRating` or `createRating`.  Both outcomes respond
`200` with the same message `"Rating submitted successfully"`. -/
def ratingsPostHandler (db : DB) (userId : Nat) (storeId : Option Nat)
    (value : Option JsNum) (comment : Option String) : ApiResp × DB :=
  match storeId, value with
  | some sid, some (.int n) =>
      if ¬ (1 ≤ n ∧ n ≤ 5) then
        ({ status := 400, message := "Rating must be a number between 1 and 5", rating := none }, db)
      else
        match getStoreById db sid with
        | none => ({ status := 404, message := "Store not found", rating := none }, db)
        | some _ =>
            match (getRatingsByStoreId db sid).find? (fun r => r.userId == userId) with
            | some e =>
                let (res, db') := updateRating db e.id n.toNat comment
                ({ status := 200, message := "Rating submitted successfully", rating := res }, db')
            | none =>
                let (row, db') := createRating db sid userId n.toNat comment
                ({ status := 200, message := "Rating submitted successfully", rating := some row }, db')
  | none, _ =>
      ({ status := 400, message := "Store ID is required", rating := none }, db)
  | _, _ =>
      ({ status := 400, message := "Rating must be a number between 1 and 5", rating := none }, db)

/-- `store.routes.js` `POST /:id/rate`: same validation, store check and
fallback existing-rating lookup, but the response message distinguishes the
update outcome (`"Rating updated successfully"`) from the create outcome
(`"Rating added successfully"`). -/
def storeRateHandler (db : DB) (userId storeId : Nat)
    (value : Option JsNum) (comment : Option String) : ApiResp × DB :=
  match value with
  | some (.int n) =>
      if ¬ (1 ≤ n ∧ n ≤ 5) then
        ({ status := 400, message := "Rating must be a number between 1 and 5", rating := none }, db)
      else
        match getStoreById db storeId with
        | none => ({ status := 404, message := "Store not found", rating := none }, db)
        | some _ =>
            match (getRatingsByStoreId db storeId).find? (fun r => r.userId == userId) with
            | some e =>
                let (res, db') := updateRating db e.id n.toNat comment
                ({ status := 200, message := "Rating updated successfully", rating := res }, db')
            | none =>
                let (row, db') := createRating db storeId userId n.toNat comment
                ({ status := 200, message := "Rating added successfully", rating := some row }, db')
  | _ =>
      ({ status := 400, message := "Rating must be a number between 1 and 5", rating := none }, db)

/-- The monolithic server's `POST /api/ratings` (no transaction, no comment
column, no aggregate maintenance): JS falsy check on `storeId`/`rating`, then
the integer range check, the store existence check, and a plain
update-or-insert keyed on `(user_id, store_id)`. -/
def apiRatingsPost (db : DB) (userId : Nat) (storeId : Option Nat)
    (ratingVal : Option JsNum) : ApiResp × DB :=
  if jsNatFalsy storeId || jsNumFalsy ratingVal then
    ({ status := 400, message := "Store ID and rating are required", rating := none }, db)
  else
    match storeId, ratingVal with
    | some sid, some (.int n) =>
        if n < 1 ∨ 5 < n then
          ({ status := 400, message := "Rating must be an integer between 1 and 5", rating := none }, db)
        else
          match lookupStore db sid with
          | none => ({ status := 404, message := "Store not found", rating := none }, db)
          | some _ =>
              match findRatingByStoreUser db sid userId with
              | some _ =>
                  ({ status := 200, message := "Rating updated successfully", rating := none },
                   { db with
                      ratings := db.ratings.map (fun r =>
                        if r.userId == userId && r.storeId == sid then
                          { r with rating := n.toNat, updatedAt := db.now }
                        else r),
                      now := db.now + 1 })
              | none =>
                  ({ status := 201, message := "Rating submitted successfully", rating := none },
                   { db with
                      ratings := db.ratings ++
                        [{ id := db.nextRatingId, userId := userId, storeId := sid,
                           rating := n.toNat, comment := none,
                           createdAt := db.now, updatedAt := db.now }],
                      nextRatingId := db.nextRatingId + 1,
                      now := db.now + 1 })
    | _, some .nonint =>
        ({ status := 400, message := "Rating must be an integer between 1 and 5", rating := none }, db)
    | _, _ =>
        ({ status := 400, message := "Store ID and rating are required", rating := none }, db)

/-- `createRating` with an injected exception: `failAt = some k` makes the
`k`-th query of the transaction throw (0 = existence `SELECT`, 1 = the
`UPDATE`/`INSERT`, 2 = the stores aggregate `UPDATE`, 3 = `COMMIT`).  The
source's `catch` issues `ROLLBACK` and rethrows, so every uncommitted
transaction-local state (`db1`, `db2`) is discarded and the published state
stays `db`.  `none` result means the error propagated. -/
def createRatingTx (failAt : Option Nat) (db : DB) (store_id user_id value : Nat)
    (comment : Option String) : Option RatingRow × DB :=
  if failAt = some 0 then (none, db)
  else
    let existing := findRatingByStoreUser db store_id user_id
    if failAt = some 1 then (none, db)
    else
      match existing with
      | some r0 =>
          let row := { r0 with rating := value, comment := comment, updatedAt := db.now }
          let db1 := { db with ratings := upsertRatingRows db.ratings store_id user_id value comment db.now }
          if failAt = some 2 then (none, db)
          else
            let db2 := storeAggAfterUpsert db1 store_id
            if failAt = some 3 then (none, db)
            else (some row, { db2 with now := db.now + 1 })
      | none =>
          let row := insertedRow db store_id user_id value comment
          let db1 := { db with ratings := db.ratings ++ [row], nextRatingId := db.nextRatingId + 1 }
          if failAt = some 2 then (none, db)
          else
            let db2 := storeAggAfterUpsert db1 store_id
            if failAt = some 3 then (none, db)
            else (some row, { db2 with now := db.now + 1 })

/-- `deleteRating` with an injected exception, mirroring `createRatingTx`
(0 = lookup `SELECT`, 1 = `DELETE`, 2 = aggregate `UPDATE`, 3 = `COMMIT`).
A missing rating id gives `ROLLBACK` and a `null` result without touching
persisted state. -/
def deleteRatingTx (failAt : Option Nat) (db : DB) (id : Nat) :
    Option RatingRow × DB :=
  if failAt = some 0 then (none, db)
  else
    match db.ratings.find? (fun r => r.id == id) with
    | none => (none, db)
    | some r0 =>
        if failAt = some 1 then (none, db)
        else
          let db1 := { db with ratings := db.ratings.filter (fun r => !(r.id == id)) }
          if failAt = some 2 then (none, db)
          else
            let db2 := storeAggAfterDelete db1 r0.storeId
            if failAt = some 3 then (none, db)
            else (some r0, { db2 with now := db.now + 1 })

/-- An `INSERT INTO ratings ..` that enforces the table's
`UNIQUE (user_id, store_id)` constraint: `none` models the datastore raising
a unique-violation error. -/
def insertRatingChecked (db : DB) (store_id user_id value : Nat)
    (comment : Option String) : Option DB :=
  if (rowsForPair db store_id user_id).isEmpty then
    some { db with
            ratings := db.ratings ++
              [{ id := db.nextRatingId, userId := user_id, storeId := store_id,
                 rating := value, comment := comment,
                 createdAt := db.now, updatedAt := db.now }],
            nextRatingId := db.nextRatingId + 1 }
  else none

/-- The `ratings.routes.js` `POST /` handler caught mid-race: its reads (the
store check and the existing-rating lookup) observed `dbRead`, but by the
time its `createRating` transaction issues the `INSERT`, a concurrent
submission has committed, so the write executes against `dbCur`.  If the
`(user_id, store_id)` pair already exists in `dbCur` the `INSERT` raises the
unique violation; `createRating` rolls the transaction back and rethrows, and
the route's `catch` answers `500 "Server error"`. -/
def ratingsPostRaced (dbRead dbCur : DB) (userId : Nat) (storeId : Option Nat)
    (value : Option JsNum) (comment : Option String) : ApiResp × DB :=
  match storeId, value with
  | some sid, some (.int n) =>
      if ¬ (1 ≤ n ∧ n ≤ 5) then
        ({ status := 400, message := "Rating must be a number between 1 and 5", rating := none }, dbCur)
      else
        match getStoreById dbRead sid with
        | none => ({ status := 404, message := "Store not found", rating := none }, dbCur)
        | some _ =>
            match (getRatingsByStoreId dbRead sid).find? (fun r => r.userId == userId) with
            | some e =>
                let (res, db') := updateRating dbCur e.id n.toNat comment
                ({ status := 200, message := "Rating submitted successfully", rating := res }, db')
            | none =>
                match insertRatingChecked dbCur sid userId n.toNat comment with
                | none => ({ status := 500, message := "Server error", rating := none }, dbCur)
                | some db1 =>
                    ({ status := 200, message := "Rating submitted successfully", rating := none },
                     { storeAggAfterUpsert db1 sid with now := dbCur.now + 1 })
  | none, _ =>
      ({ status := 400, message := "Store ID is required", rating := none }, dbCur)
  | _, _ =>
      ({ status := 400, message := "Rating must be a number between 1 and 5", rating := none }, dbCur)

/-- ASCII lowercasing of one character, as performed by
`String.prototype.toLowerCase()` on the ASCII range. -/
def lowerPairs : List (Char × Char) :=
  [('A', 'a'), ('B', 'b'), ('C', 'c'), ('D', 'd'), ('E', 'e'), ('F', 'f'),
   ('G', 'g'), ('H', 'h'), ('I', 'i'), ('J', 'j'), ('K', 'k'), ('L', 'l'),
   ('M', 'm'), ('N', 'n'), ('O', 'o'), ('P', 'p'), ('Q', 'q'), ('R', 'r'),
   ('S', 's'), ('T', 't'), ('U', 'u'), ('V', 'v'), ('W', 'w'), ('X', 'x'),
   ('Y', 'y'), ('Z', 'z')]

/-- Lowercase one character (identity outside `A`-`Z`). -/
def lowerChar (c : Char) : Char :=
  match lowerPairs.find? (fun p => p.fst == c) with
  | some p => p.snd
  | none => c

/-- `email.toLowerCase()` (ASCII fragment). -/
def jsToLowerCase (s : String) : String :=
  String.mk (s.data.map lowerChar)

/-- `/[A-Z]/.test(password)`. -/
def hasUpperCase (s : String) : Bool :=
  s.data.any (fun c => 65 ≤ c.toNat && c.toNat ≤ 90)

/-- The character class of `/[!@#$%^&*(),.?":\x7b\x7d|<>]/`. -/
def specialChars : List Char :=
  ['!', '@', '#', '$', '%', '^', '&', '*', '(', ')', ',', '.', '?', '"',
   ':', '\x7b', '\x7d', '|', '<', '>']

/-- `/[!@#$%^&*(),.?":\x7b\x7d|<>]/.test(password)`. -/
def hasSpecialChar (s : String) : Bool :=
  s.data.any (fun c => specialChars.contains c)

/-- The row inserted by `INSERT INTO users (name, email, password, address,
role) VALUES (.., 'user')` at registration. -/
def registeredRow (db : DB) (name email password : String)
    (address : Option String) : UserRow :=
  { id := db.nextUserId, name := name, email := email, password := password,
    address := address, role := "user" }

/-- The monolithic server's `POST /api/auth/register`: field validations in
source order, then an **exact-match** email-existence check
(`SELECT * FROM users WHERE email = $1` on the raw input), then the insert
with role `user`. -/
def apiAuthRegister (db : DB) (name email password : String)
    (address : Option String) : ApiResp × DB :=
  if name = "" ∨ email = "" ∨ password = "" then
    ({ status := 400, message := "Name, email, and password are required", rating := none }, db)
  else if name.length < 20 ∨ 60 < name.length then
    ({ status := 400, message := "Name must be between 20 and 60 characters", rating := none }, db)
  else if 400 < (address.getD "").length then
    ({ status := 400, message := "Address cannot exceed 400 characters", rating := none }, db)
  else if password.length < 8 ∨ 16 < password.length then
    ({ status := 400, message := "Password must be between 8 and 16 characters", rating := none }, db)
  else if ¬ hasUpperCase password then
    ({ status := 400, message := "Password must contain at least one uppercase letter", rating := none }, db)
  else if ¬ hasSpecialChar password then
    ({ status := 400, message := "Password must contain at least one special character", rating := none }, db)
  else if db.users.any (fun u => u.email == email) then
    ({ status := 400, message := "Email already exists", rating := none }, db)
  else
    ({ status := 201, message := "User registered successfully", rating := none },
     { db with
        users := db.users ++ [registeredRow db name email password address],
        nextUserId := db.nextUserId + 1 })

/-- `auth.routes.js` `POST /register`: `express-validator` shape checks are
the external validation gate (`validationOk`); the handler then lowercases
the email, rejects when `isEmailInUse` finds an exact match for the lowercased
email, and inserts the user with the lowercased email and role `user`. -/
def routeAuthRegister (db : DB) (validationOk : Bool)
    (name email password : String) (address : Option String) : ApiResp × DB :=
  if ¬ validationOk then
    ({ status := 400, message := "Validation failed", rating := none }, db)
  else
    let lowered := jsToLowerCase email
    if db.users.any (fun u => u.email == lowered) then
      ({ status := 400, message := "Email is already in use", rating := none }, db)
    else
      ({ status := 201, message := "User registered successfully", rating := none },
       { db with
          users := db.users ++ [registeredRow db name lowered password address],
          nextUserId := db.nextUserId + 1 })

/-- `parseFloat(x.toFixed(1))`: rounding to one decimal place (half away
from zero, which on the nonnegative means occurring here is half-up). -/
def roundTo1 (q : ℚ) : ℚ := (round (q * 10) : ℤ) / 10

/-- `helpers.js` `calculateAverageRating`: 0 for a missing or empty array,
otherwise the mean of the `value` fields rounded to one decimal via
`toFixed(1)`.  The input is the list of rating values. -/
def calculateAverageRating (ratings : List Nat) : ℚ :=
  if ratings.length = 0 then 0
  else roundTo1 ((ratings.sum : ℚ) / (ratings.length : ℚ))

/-- The `ratings` table's primary-key discipline: row ids are distinct and
below the `SERIAL` counter. -/
def idsOk (db : DB) : Prop :=
  (db.ratings.map (fun r => r.id)).Nodup ∧ ∀ r ∈ db.ratings, r.id < db.nextRatingId

/-- The `UNIQUE (user_id, store_id)` constraint of the `ratings` table. -/
def pairsUnique (db : DB) : Prop :=
  db.ratings.Pairwise (fun a b => ¬ (a.userId = b.userId ∧ a.storeId = b.storeId))

/-- The spec's §8 invariant: every store's derived columns agree with the
ratings relation (`rating_count` is the exact row count, `average_rating`
the mean, 0 when no rating exists). -/
def AggInvariant (db : DB) : Prop :=
  ∀ s ∈ db.stores,
    s.ratingCount = storeCountOf db s.id ∧
    s.averageRating = some ((storeAvgOf db s.id).getD 0)

/-- A committed rating write: create/upsert, update by id, or delete by id. -/
inductive RatingOp where
  | submit (storeId userId value : Nat) (comment : Option String)
  | modify (ratingId value : Nat) (comment : Option String)
  | remove (ratingId : Nat)
  deriving Repr, DecidableEq

/-- The committed datastore state after a rating write. -/
def applyRatingOp (op : RatingOp) (db : DB) : DB :=
  match op with
  | .submit sid uid v c => (createRating db sid uid v c).2
  | .modify rid v c => (updateRating db rid v c).2
  | .remove rid => (deleteRating db rid).2

/-- A sequence of rating submissions by one user for one store. -/
def submitSeq (db : DB) (storeId userId : Nat)
    (subs : List (Nat × Option String)) : DB :=
  subs.foldl (fun d vc => (createRating d storeId userId vc.1 vc.2).2) db

section ListLemmas

variable {α : Type}

theorem filter_map_comm_pred (p : α → Bool) (f : α → α) (l : List α)
    (h : ∀ a ∈ l, p (f a) = p a) :
    (l.map f).filter p = (l.filter p).map f := by
  induction l with
  | nil => rfl
  | cons a t ih =>
      have ha := h a (List.mem_cons_self a t)
      have ht : ∀ x ∈ t, p (f x) = p x := fun x hx => h x (List.mem_cons_of_mem a hx)
      cases hpa : p a with
      | true => simp [List.filter_cons, ha, hpa, ih ht]
      | false => simp [List.filter_cons, ha, hpa, ih ht]

theorem map_id_on_filter (p : α → Bool) (f : α → α) (l : List α)
    (h : ∀ a ∈ l, p a = true → f a = a) :
    (l.filter p).map f = l.filter p := by
  have hall : ∀ a ∈ l.filter p, f a = a := fun a ha =>
    h a (List.mem_filter.mp ha).1 (List.mem_filter.mp ha).2
  calc (l.filter p).map f = (l.filter p).map id := List.map_congr_left hall
    _ = l.filter p := List.map_id _

theorem filter_eq_singleton_of_at_most_one (p : α → Bool) (l : List α)
    (hp : l.Pairwise (fun x y => ¬ (p x = true ∧ p y = true)))
    (a : α) (hmem : a ∈ l) (hpa : p a = true) :
    l.filter p = [a] := by
  induction l with
  | nil => cases hmem
  | cons b t ih =>
      obtain ⟨hb, ht⟩ := List.pairwise_cons.mp hp
      rcases List.mem_cons.mp hmem with h | hat
      · subst h
        have hnone : ∀ x ∈ t, p x = false := by
          intro x hx
          cases hx' : p x with
          | true => exact absurd ⟨hpa, hx'⟩ (hb x hx)
          | false => rfl
        have : t.filter p = [] := List.filter_eq_nil_iff.mpr (by
          intro x hx
          simp [hnone x hx])
        simp [List.filter_cons, hpa, this]
      · have hpb : p b = false := by
          cases hb' : p b with
          | true => exact absurd ⟨hb', hpa⟩ (hb a hat)
          | false => rfl
        simp [List.filter_cons, hpb, ih ht hat]

end ListLemmas

section ModelLemmas

theorem upsertFun_storeId (sid uid v : Nat) (c : Option String) (now : Nat)
    (r : RatingRow) : (upsertFun sid uid v c now r).storeId = r.storeId := by
  unfold upsertFun; split <;> rfl

theorem upsertFun_userId (sid uid v : Nat) (c : Option String) (now : Nat)
    (r : RatingRow) : (upsertFun sid uid v c now r).userId = r.userId := by
  unfold upsertFun; split <;> rfl

theorem upsertFun_id (sid uid v : Nat) (c : Option String) (now : Nat)
    (r : RatingRow) : (upsertFun sid uid v c now r).id = r.id := by
  unfold upsertFun; split <;> rfl

theorem updateByIdFun_storeId (rid v : Nat) (c : Option String) (now : Nat)
    (r : RatingRow) : (updateByIdFun rid v c now r).storeId = r.storeId := by
  unfold updateByIdFun; split <;> rfl

theorem updateByIdFun_userId (rid v : Nat) (c : Option String) (now : Nat)
    (r : RatingRow) : (updateByIdFun rid v c now r).userId = r.userId := by
  unfold updateByIdFun; split <;> rfl

theorem updateByIdFun_id (rid v : Nat) (c : Option String) (now : Nat)
    (r : RatingRow) : (updateByIdFun rid v c now r).id = r.id := by
  unfold updateByIdFun; split <;> rfl

theorem filter_store_upsert (rows : List RatingRow) (sid uid v : Nat)
    (c : Option String) (now t : Nat) :
    (upsertRatingRows rows sid uid v c now).filter (fun r => r.storeId == t)
      = (rows.filter (fun r => r.storeId == t)).map (upsertFun sid uid v c now) :=
  filter_map_comm_pred _ _ _ (fun a _ => by rw [upsertFun_storeId])

theorem filter_store_upsert_other (rows : List RatingRow) (sid uid v : Nat)
    (c : Option String) (now t : Nat) (ht : t ≠ sid) :
    (upsertRatingRows rows sid uid v c now).filter (fun r => r.storeId == t)
      = rows.filter (fun r => r.storeId == t) := by
  rw [filter_store_upsert]
  apply map_id_on_filter
  intro a _ hpa
  have hat : a.storeId = t := by simpa using hpa
  unfold upsertFun
  rw [if_neg]
  simp [hat, ht]

theorem filter_store_append_other (rows : List RatingRow) (row : RatingRow)
    (t : Nat) (ht : row.storeId ≠ t) :
    (rows ++ [row]).filter (fun r => r.storeId == t)
      = rows.filter (fun r => r.storeId == t) := by
  rw [List.filter_append]
  simp [List.filter_cons, ht]

theorem filter_store_updateById (rows : List RatingRow) (rid v : Nat)
    (c : Option String) (now t : Nat) :
    (rows.map (updateByIdFun rid v c now)).filter (fun r => r.storeId == t)
      = (rows.filter (fun r => r.storeId == t)).map (updateByIdFun rid v c now) :=
  filter_map_comm_pred _ _ _ (fun a _ => by rw [updateByIdFun_storeId])

theorem eq_of_rating_id_eq {rows : List RatingRow}
    (hnodup : (rows.map (fun r => r.id)).Nodup)
    {a b : RatingRow} (ha : a ∈ rows) (hb : b ∈ rows) (hid : a.id = b.id) :
    a = b :=
  List.inj_on_of_nodup_map hnodup ha hb hid

theorem filter_store_updateById_other {db : DB} {r0 : RatingRow}
    (hr0 : r0 ∈ db.ratings) (hnodup : (db.ratings.map (fun r => r.id)).Nodup)
    {rid : Nat} (hr0id : r0.id = rid) (v : Nat) (c : Option String) (now t : Nat)
    (ht : t ≠ r0.storeId) :
    (db.ratings.map (updateByIdFun rid v c now)).filter (fun r => r.storeId == t)
      = db.ratings.filter (fun r => r.storeId == t) := by
  rw [filter_store_updateById]
  apply map_id_on_filter
  intro a ha hpa
  have hat : a.storeId = t := by simpa using hpa
  unfold updateByIdFun
  rw [if_neg]
  intro hbeq
  have haid : a.id = rid := by simpa using hbeq
  have : a = r0 := eq_of_rating_id_eq hnodup ha hr0 (haid.trans hr0id.symm)
  rw [this] at hat
  exact ht hat.symm

theorem filter_store_delete_other {db : DB} {r0 : RatingRow}
    (hr0 : r0 ∈ db.ratings) (hnodup : (db.ratings.map (fun r => r.id)).Nodup)
    {rid : Nat} (hr0id : r0.id = rid) (t : Nat) (ht : t ≠ r0.storeId) :
    (db.ratings.filter (fun r => !(r.id == rid))).filter (fun r => r.storeId == t)
      = db.ratings.filter (fun r => r.storeId == t) := by
  rw [List.filter_comm]
  apply List.filter_eq_self.mpr
  intro a ha
  have hat : a.storeId = t := by
    simpa using (List.mem_filter.mp ha).2
  have hmem : a ∈ db.ratings := (List.mem_filter.mp ha).1
  simp only [Bool.not_eq_true']
  cases hbeq : (a.id == rid) with
  | false => rfl
  | true =>
      have haid : a.id = rid := by simpa using hbeq
      have : a = r0 := eq_of_rating_id_eq hnodup hmem hr0 (haid.trans hr0id.symm)
      rw [this] at hat
      exact absurd hat.symm ht

theorem upsert_ids (rows : List RatingRow) (sid uid v : Nat)
    (c : Option String) (now : Nat) :
    (upsertRatingRows rows sid uid v c now).map (fun r => r.id)
      = rows.map (fun r => r.id) := by
  unfold upsertRatingRows
  rw [List.map_map]
  exact List.map_congr_left (fun a _ => by simp [Function.comp, upsertFun_id])

theorem updateById_ids (rows : List RatingRow) (rid v : Nat)
    (c : Option String) (now : Nat) :
    (rows.map (updateByIdFun rid v c now)).map (fun r => r.id)
      = rows.map (fun r => r.id) := by
  rw [List.map_map]
  exact List.map_congr_left (fun a _ => by simp [Function.comp, updateByIdFun_id])

theorem storeAvgOf_eq_some {db : DB} {sid : Nat} {r : RatingRow}
    (hr : r ∈ db.ratings) (hsid : r.storeId = sid) :
    storeAvgOf db sid = some ((storeAvgOf db sid).getD 0) := by
  have hmem : r ∈ ratingsForStore db sid :=
    List.mem_filter.mpr ⟨hr, by simp [hsid]⟩
  have hne : (ratingsForStore db sid).length ≠ 0 := by
    have := List.ne_nil_of_mem hmem
    simpa [List.length_eq_zero] using this
  unfold storeAvgOf sqlAvg
  rw [if_neg (by simpa using hne)]
  rfl

end ModelLemmas

section AggregatePreservation

theorem aggPair_transfer {dbA dbB : DB} {t : Nat}
    (h : ratingsForStore dbA t = ratingsForStore dbB t) :
    storeCountOf dbA t = storeCountOf dbB t ∧ storeAvgOf dbA t = storeAvgOf dbB t := by
  constructor
  · unfold storeCountOf; rw [h]
  · unfold storeAvgOf; rw [h]

theorem aggInvariant_setNow {db : DB} (n : Nat) (h : AggInvariant db) :
    AggInvariant { db with now := n } := h

theorem idsOk_setNow {db : DB} (n : Nat) (h : idsOk db) :
    idsOk { db with now := n } := h

theorem aggInvariant_storeAggAfterUpsert {db0 : DB} {sid : Nat}
    (hothers : ∀ s ∈ db0.stores, ¬ s.id = sid →
        s.ratingCount = storeCountOf db0 s.id ∧
        s.averageRating = some ((storeAvgOf db0 s.id).getD 0))
    (hsome : storeAvgOf db0 sid = some ((storeAvgOf db0 sid).getD 0)) :
    AggInvariant (storeAggAfterUpsert db0 sid) := by
  intro s' hs'
  obtain ⟨s, hs, rfl⟩ := List.mem_map.mp hs'
  have hcount : storeCountOf (storeAggAfterUpsert db0 sid) = storeCountOf db0 := rfl
  have havg : storeAvgOf (storeAggAfterUpsert db0 sid) = storeAvgOf db0 := rfl
  by_cases hid : s.id = sid
  · subst hid
    simp only [hcount, havg, beq_self_eq_true, if_true]
    exact ⟨trivial, hsome⟩
  · have hbeq : (s.id == sid) = false := by simpa using hid
    simp only [hcount, havg, hbeq, Bool.false_eq_true, if_false]
    exact hothers s hs hid

theorem aggInvariant_storeAvgOnlyUpdate {db0 : DB} {sid : Nat}
    (hcounts : ∀ s ∈ db0.stores, s.ratingCount = storeCountOf db0 s.id)
    (hothers : ∀ s ∈ db0.stores, ¬ s.id = sid →
        s.averageRating = some ((storeAvgOf db0 s.id).getD 0))
    (hsome : storeAvgOf db0 sid = some ((storeAvgOf db0 sid).getD 0)) :
    AggInvariant (storeAvgOnlyUpdate db0 sid) := by
  intro s' hs'
  obtain ⟨s, hs, rfl⟩ := List.mem_map.mp hs'
  have hcount : storeCountOf (storeAvgOnlyUpdate db0 sid) = storeCountOf db0 := rfl
  have havg : storeAvgOf (storeAvgOnlyUpdate db0 sid) = storeAvgOf db0 := rfl
  by_cases hid : s.id = sid
  · subst hid
    simp only [hcount, havg, beq_self_eq_true, if_true]
    exact ⟨hcounts s hs, hsome⟩
  · have hbeq : (s.id == sid) = false := by simpa using hid
    simp only [hcount, havg, hbeq, Bool.false_eq_true, if_false]
    exact ⟨hcounts s hs, hothers s hs hid⟩

theorem aggInvariant_storeAggAfterDelete {db0 : DB} {sid : Nat}
    (hothers : ∀ s ∈ db0.stores, ¬ s.id = sid →
        s.ratingCount = storeCountOf db0 s.id ∧
        s.averageRating = some ((storeAvgOf db0 s.id).getD 0)) :
    AggInvariant (storeAggAfterDelete db0 sid) := by
  intro s' hs'
  obtain ⟨s, hs, rfl⟩ := List.mem_map.mp hs'
  have hcount : storeCountOf (storeAggAfterDelete db0 sid) = storeCountOf db0 := rfl
  have havg : storeAvgOf (storeAggAfterDelete db0 sid) = storeAvgOf db0 := rfl
  by_cases hid : s.id = sid
  · subst hid
    simp only [hcount, havg, beq_self_eq_true, if_true]
    exact ⟨trivial, trivial⟩
  · have hbeq : (s.id == sid) = false := by simpa using hid
    simp only [hcount, havg, hbeq, Bool.false_eq_true, if_false]
    exact hothers s hs hid

end AggregatePreservation

section OpPreservation

theorem createRating_aggInvariant (db : DB) (sid uid v : Nat) (c : Option String)
    (hagg : AggInvariant db) :
    AggInvariant (createRating db sid uid v c).2 := by
  cases hfind : findRatingByStoreUser db sid uid with
  | some r0 =>
      have hfind' : db.ratings.find? (fun r => r.storeId == sid && r.userId == uid) = some r0 := hfind
      have hr0 : r0 ∈ db.ratings := List.mem_of_find?_eq_some hfind'
      have hp := List.find?_some hfind'
      simp only [Bool.and_eq_true, beq_iff_eq] at hp
      have hr0sid : r0.storeId = sid := hp.1
      have hgoal : (createRating db sid uid v c).2
          = { storeAggAfterUpsert
                { db with ratings := upsertRatingRows db.ratings sid uid v c db.now } sid
              with now := db.now + 1 } := by
        simp [createRating, hfind]
      rw [hgoal]
      apply aggInvariant_setNow
      apply aggInvariant_storeAggAfterUpsert
      · intro s hs hid
        have h0 := hagg s hs
        have heq : ratingsForStore
            { db with ratings := upsertRatingRows db.ratings sid uid v c db.now } s.id
            = ratingsForStore db s.id :=
          filter_store_upsert_other db.ratings sid uid v c db.now s.id hid
        obtain ⟨hc, ha⟩ := aggPair_transfer heq
        exact ⟨h0.1.trans hc.symm, by rw [ha]; exact h0.2⟩
      · exact storeAvgOf_eq_some (List.mem_map_of_mem _ hr0)
          ((upsertFun_storeId sid uid v c db.now r0).trans hr0sid)
  | none =>
      have hgoal : (createRating db sid uid v c).2
          = { storeAggAfterUpsert
                { db with
                    ratings := db.ratings ++
                      [insertedRow db sid uid v c],
                    nextRatingId := db.nextRatingId + 1 } sid
              with now := db.now + 1 } := by
        simp [createRating, hfind]
      rw [hgoal]
      apply aggInvariant_setNow
      apply aggInvariant_storeAggAfterUpsert
      · intro s hs hid
        have h0 := hagg s hs
        have heq : ratingsForStore
            { db with
                ratings := db.ratings ++
                  [insertedRow db sid uid v c],
                nextRatingId := db.nextRatingId + 1 } s.id
            = ratingsForStore db s.id :=
          filter_store_append_other db.ratings _ s.id (fun h => hid (by simpa using h.symm))
        obtain ⟨hc, ha⟩ := aggPair_transfer heq
        exact ⟨h0.1.trans hc.symm, by rw [ha]; exact h0.2⟩
      · exact storeAvgOf_eq_some
          (List.mem_append_right _ (List.mem_singleton_self _)) rfl

theorem updateRating_aggInvariant (db : DB) (rid v : Nat) (c : Option String)
    (hagg : AggInvariant db) (hids : idsOk db) :
    AggInvariant (updateRating db rid v c).2 := by
  cases hfind : db.ratings.find? (fun r => r.id == rid) with
  | none => simpa [updateRating, hfind] using hagg
  | some r0 =>
      have hr0 : r0 ∈ db.ratings := List.mem_of_find?_eq_some hfind
      have hr0id : r0.id = rid := by simpa using List.find?_some hfind
      have hgoal : (updateRating db rid v c).2
          = { storeAvgOnlyUpdate
                { db with ratings := db.ratings.map (updateByIdFun rid v c db.now) } r0.storeId
              with now := db.now + 1 } := by
        simp [updateRating, hfind]
      rw [hgoal]
      apply aggInvariant_setNow
      apply aggInvariant_storeAvgOnlyUpdate
      · intro s hs
        have h0 := hagg s hs
        have hlen : storeCountOf
            { db with ratings := db.ratings.map (updateByIdFun rid v c db.now) } s.id
            = storeCountOf db s.id := by
          unfold storeCountOf ratingsForStore
          rw [show ({ db with ratings := db.ratings.map (updateByIdFun rid v c db.now) } : DB).ratings
                = db.ratings.map (updateByIdFun rid v c db.now) from rfl]
          rw [filter_store_updateById]
          exact List.length_map _ _
        exact h0.1.trans hlen.symm
      · intro s hs hid
        have h0 := hagg s hs
        have heq : ratingsForStore
            { db with ratings := db.ratings.map (updateByIdFun rid v c db.now) } s.id
            = ratingsForStore db s.id :=
          filter_store_updateById_other hr0 hids.1 hr0id v c db.now s.id hid
        rw [(aggPair_transfer heq).2]
        exact h0.2
      · exact storeAvgOf_eq_some (List.mem_map_of_mem _ hr0)
          (updateByIdFun_storeId rid v c db.now r0)

theorem deleteRating_aggInvariant (db : DB) (rid : Nat)
    (hagg : AggInvariant db) (hids : idsOk db) :
    AggInvariant (deleteRating db rid).2 := by
  cases hfind : db.ratings.find? (fun r => r.id == rid) with
  | none => simpa [deleteRating, hfind] using hagg
  | some r0 =>
      have hr0 : r0 ∈ db.ratings := List.mem_of_find?_eq_some hfind
      have hr0id : r0.id = rid := by simpa using List.find?_some hfind
      have hgoal : (deleteRating db rid).2
          = { storeAggAfterDelete
                { db with ratings := db.ratings.filter (fun r => !(r.id == rid)) } r0.storeId
              with now := db.now + 1 } := by
        simp [deleteRating, hfind]
      rw [hgoal]
      apply aggInvariant_setNow
      apply aggInvariant_storeAggAfterDelete
      intro s hs hid
      have h0 := hagg s hs
      have heq : ratingsForStore
          { db with ratings := db.ratings.filter (fun r => !(r.id == rid)) } s.id
          = ratingsForStore db s.id :=
        filter_store_delete_other hr0 hids.1 hr0id s.id hid
      obtain ⟨hc, ha⟩ := aggPair_transfer heq
      exact ⟨h0.1.trans hc.symm, by rw [ha]; exact h0.2⟩

theorem createRating_idsOk (db : DB) (sid uid v : Nat) (c : Option String)
    (hids : idsOk db) : idsOk (createRating db sid uid v c).2 := by
  obtain ⟨hnd, hlt⟩ := hids
  cases hfind : findRatingByStoreUser db sid uid with
  | some r0 =>
      have hgoal : (createRating db sid uid v c).2
          = { storeAggAfterUpsert
                { db with ratings := upsertRatingRows db.ratings sid uid v c db.now } sid
              with now := db.now + 1 } := by
        simp [createRating, hfind]
      rw [hgoal]
      constructor
      · show ((upsertRatingRows db.ratings sid uid v c db.now).map (fun r => r.id)).Nodup
        rw [upsert_ids]; exact hnd
      · intro r hr
        obtain ⟨r₁, hr₁, rfl⟩ := List.mem_map.mp hr
        show (upsertFun sid uid v c db.now r₁).id < db.nextRatingId
        rw [upsertFun_id]; exact hlt r₁ hr₁
  | none =>
      have hgoal : (createRating db sid uid v c).2
          = { storeAggAfterUpsert
                { db with
                    ratings := db.ratings ++
                      [insertedRow db sid uid v c],
                    nextRatingId := db.nextRatingId + 1 } sid
              with now := db.now + 1 } := by
        simp [createRating, hfind]
      rw [hgoal]
      constructor
      · show ((db.ratings ++
            [insertedRow db sid uid v c]).map
            (fun r => r.id)).Nodup
        rw [List.map_append]
        rw [List.nodup_append]
        refine ⟨hnd, List.nodup_singleton _, ?_⟩
        intro a ha hb
        obtain ⟨r₁, hr₁, rfl⟩ := List.mem_map.mp ha
        have hb' : r₁.id = db.nextRatingId := by simpa using hb
        exact absurd hb' (Nat.ne_of_lt (hlt r₁ hr₁))
      · intro r hr
        rcases List.mem_append.mp hr with h | h
        · exact Nat.lt_succ_of_lt (hlt r h)
        · have : r = insertedRow db sid uid v c :=
            List.mem_singleton.mp h
          rw [this]; exact Nat.lt_succ_self _

theorem updateRating_idsOk (db : DB) (rid v : Nat) (c : Option String)
    (hids : idsOk db) : idsOk (updateRating db rid v c).2 := by
  obtain ⟨hnd, hlt⟩ := hids
  cases hfind : db.ratings.find? (fun r => r.id == rid) with
  | none => simpa [updateRating, hfind] using And.intro hnd hlt
  | some r0 =>
      have hgoal : (updateRating db rid v c).2
          = { storeAvgOnlyUpdate
                { db with ratings := db.ratings.map (updateByIdFun rid v c db.now) } r0.storeId
              with now := db.now + 1 } := by
        simp [updateRating, hfind]
      rw [hgoal]
      constructor
      · show ((db.ratings.map (updateByIdFun rid v c db.now)).map (fun r => r.id)).Nodup
        rw [updateById_ids]; exact hnd
      · intro r hr
        obtain ⟨r₁, hr₁, rfl⟩ := List.mem_map.mp hr
        show (updateByIdFun rid v c db.now r₁).id < db.nextRatingId
        rw [updateByIdFun_id]; exact hlt r₁ hr₁

theorem deleteRating_idsOk (db : DB) (rid : Nat)
    (hids : idsOk db) : idsOk (deleteRating db rid).2 := by
  obtain ⟨hnd, hlt⟩ := hids
  cases hfind : db.ratings.find? (fun r => r.id == rid) with
  | none => simpa [deleteRating, hfind] using And.intro hnd hlt
  | some r0 =>
      have hgoal : (deleteRating db rid).2
          = { storeAggAfterDelete
                { db with ratings := db.ratings.filter (fun r => !(r.id == rid)) } r0.storeId
              with now := db.now + 1 } := by
        simp [deleteRating, hfind]
      rw [hgoal]
      constructor
      · show ((db.ratings.filter (fun r => !(r.id == rid))).map (fun r => r.id)).Nodup
        exact ((List.filter_sublist _).map _).nodup hnd
      · intro r hr
        exact hlt r (List.mem_of_mem_filter hr)

theorem createRating_pairsUnique (db : DB) (sid uid v : Nat) (c : Option String)
    (hpair : pairsUnique db) : pairsUnique (createRating db sid uid v c).2 := by
  cases hfind : findRatingByStoreUser db sid uid with
  | some r0 =>
      have hgoal : (createRating db sid uid v c).2
          = { storeAggAfterUpsert
                { db with ratings := upsertRatingRows db.ratings sid uid v c db.now } sid
              with now := db.now + 1 } := by
        simp [createRating, hfind]
      rw [hgoal]
      show ((db.ratings.map (upsertFun sid uid v c db.now)).Pairwise
        (fun a b => ¬ (a.userId = b.userId ∧ a.storeId = b.storeId)))
      refine List.Pairwise.map _ ?_ hpair
      intro a b hR hcon
      apply hR
      refine ⟨?_, ?_⟩
      · have := hcon.1; rwa [upsertFun_userId, upsertFun_userId] at this
      · have := hcon.2; rwa [upsertFun_storeId, upsertFun_storeId] at this
  | none =>
      have hfind' : db.ratings.find? (fun r => r.storeId == sid && r.userId == uid) = none := hfind
      have hgoal : (createRating db sid uid v c).2
          = { storeAggAfterUpsert
                { db with
                    ratings := db.ratings ++
                      [insertedRow db sid uid v c],
                    nextRatingId := db.nextRatingId + 1 } sid
              with now := db.now + 1 } := by
        simp [createRating, hfind]
      rw [hgoal]
      show ((db.ratings ++
          [insertedRow db sid uid v c]).Pairwise
        (fun a b => ¬ (a.userId = b.userId ∧ a.storeId = b.storeId)))
      rw [List.pairwise_append]
      refine ⟨hpair, List.pairwise_singleton _ _, ?_⟩
      intro a ha b hb
      have hb' : b = insertedRow db sid uid v c :=
        List.mem_singleton.mp hb
      subst hb'
      intro hcon
      have hnot := List.find?_eq_none.mp hfind' a ha
      apply hnot
      have h1 : a.userId = uid := hcon.1
      have h2 : a.storeId = sid := hcon.2
      simp [h1, h2]

end OpPreservation

/-- C1: after any committed rating write (create/upsert, update, delete) the
derived store columns still agree exactly with the ratings relation — each
store's `rating_count` is the number of its rating rows and its
`average_rating` is their arithmetic mean (0 when the store has no ratings);
the primary-key discipline on rating ids is preserved alongside. -/
theorem aggregate_invariant_after_write (db : DB) (op : RatingOp)
    (hagg : AggInvariant db) (hids : idsOk db) :
    AggInvariant (applyRatingOp op db) ∧ idsOk (applyRatingOp op db) := by
  cases op with
  | submit sid uid v c =>
      exact ⟨createRating_aggInvariant db sid uid v c hagg,
             createRating_idsOk db sid uid v c hids⟩
  | modify rid v c =>
      exact ⟨updateRating_aggInvariant db rid v c hagg hids,
             updateRating_idsOk db rid v c hids⟩
  | remove rid =>
      exact ⟨deleteRating_aggInvariant db rid hagg hids,
             deleteRating_idsOk db rid hids⟩

/-- A user row from the seed data of `db/schema.sql`. -/
def exUser : UserRow :=
  { id := 4, name := "Normal User", email := "user1@example.com",
    password := "credential-hash", address := some "321 User Street", role := "user" }

/-- A store row (no ratings yet, derived columns at their clean values). -/
def exStore : StoreRow :=
  { id := 1, name := "Coffee Shop", email := "coffee@example.com",
    address := some "123 Coffee Street", ownerId := some 2,
    averageRating := some 0, ratingCount := 0, updatedAt := 0 }

/-- A small concrete datastore: one user, one store, no ratings. -/
def exDb : DB :=
  { users := [exUser], stores := [exStore], ratings := [],
    nextUserId := 5, nextRatingId := 1, now := 10 }

/-- Witness for `aggregate_invariant_after_write`: the invariant holds of the
concrete datastore and is preserved by a concrete submission. -/
theorem aggregate_invariant_after_write_witness :
    AggInvariant exDb ∧ idsOk exDb ∧
      AggInvariant (applyRatingOp (.submit 1 4 5 none) exDb) := by
  have h1 : AggInvariant exDb := by
    intro s hs
    have : s = exStore := by simpa [exDb] using hs
    subst this
    exact ⟨rfl, rfl⟩
  have h2 : idsOk exDb := by
    constructor
    · simp [exDb]
    · intro r hr
      simp [exDb] at hr
  exact ⟨h1, h2, (aggregate_invariant_after_write exDb (.submit 1 4 5 none) h1 h2).1⟩

section UpsertUniqueness

theorem upsertFun_pair_pred (sid uid v : Nat) (c : Option String) (now : Nat)
    (a : RatingRow) :
    ((upsertFun sid uid v c now a).storeId == sid && (upsertFun sid uid v c now a).userId == uid)
      = (a.storeId == sid && a.userId == uid) := by
  rw [upsertFun_storeId, upsertFun_userId]

theorem pairsUnique_imp (db : DB) (hpair : pairsUnique db) (sid uid : Nat) :
    db.ratings.Pairwise (fun x y =>
      ¬ ((x.storeId == sid && x.userId == uid) = true ∧
         (y.storeId == sid && y.userId == uid) = true)) := by
  refine hpair.imp ?_
  intro a b hR hcon
  apply hR
  obtain ⟨h1, h2⟩ := hcon
  simp only [Bool.and_eq_true, beq_iff_eq] at h1 h2
  exact ⟨h1.2.trans h2.2.symm, h1.1.trans h2.1.symm⟩

theorem createRating_rowsForPair (db : DB) (sid uid v : Nat) (c : Option String)
    (hpair : pairsUnique db) :
    rowsForPair (createRating db sid uid v c).2 sid uid
      = [(createRating db sid uid v c).1] := by
  cases hfind : findRatingByStoreUser db sid uid with
  | some r0 =>
      have hfind' : db.ratings.find? (fun r => r.storeId == sid && r.userId == uid) = some r0 := hfind
      have hr0 : r0 ∈ db.ratings := List.mem_of_find?_eq_some hfind'
      have hp0 := List.find?_some hfind'
      have hp : (r0.storeId == sid && r0.userId == uid) = true := hp0
      have hgoal1 : (createRating db sid uid v c).1
          = { r0 with rating := v, comment := c, updatedAt := db.now } := by
        simp [createRating, hfind]
      have hgoal2 : (createRating db sid uid v c).2
          = { storeAggAfterUpsert
                { db with ratings := upsertRatingRows db.ratings sid uid v c db.now } sid
              with now := db.now + 1 } := by
        simp [createRating, hfind]
      rw [hgoal1, hgoal2]
      show ((upsertRatingRows db.ratings sid uid v c db.now).filter
        (fun r => r.storeId == sid && r.userId == uid)) = _
      have hcomm : ((db.ratings.map (upsertFun sid uid v c db.now)).filter
            (fun r => r.storeId == sid && r.userId == uid))
          = ((db.ratings.filter (fun r => r.storeId == sid && r.userId == uid)).map
            (upsertFun sid uid v c db.now)) :=
        filter_map_comm_pred _ _ _ (fun a _ => upsertFun_pair_pred sid uid v c db.now a)
      rw [show upsertRatingRows db.ratings sid uid v c db.now
            = db.ratings.map (upsertFun sid uid v c db.now) from rfl, hcomm]
      have hsingle : db.ratings.filter (fun r => r.storeId == sid && r.userId == uid) = [r0] :=
        filter_eq_singleton_of_at_most_one _ _ (pairsUnique_imp db hpair sid uid) r0 hr0 hp
      rw [hsingle]
      simp [upsertFun, hp]
  | none =>
      have hfind' : db.ratings.find? (fun r => r.storeId == sid && r.userId == uid) = none := hfind
      have hgoal1 : (createRating db sid uid v c).1 = insertedRow db sid uid v c := by
        simp [createRating, hfind]
      have hgoal2 : (createRating db sid uid v c).2
          = { storeAggAfterUpsert
                { db with
                    ratings := db.ratings ++ [insertedRow db sid uid v c],
                    nextRatingId := db.nextRatingId + 1 } sid
              with now := db.now + 1 } := by
        simp [createRating, hfind]
      rw [hgoal1, hgoal2]
      show ((db.ratings ++ [insertedRow db sid uid v c]).filter
        (fun r => r.storeId == sid && r.userId == uid)) = [insertedRow db sid uid v c]
      rw [List.filter_append]
      have hnil : db.ratings.filter (fun r => r.storeId == sid && r.userId == uid) = [] :=
        List.filter_eq_nil_iff.mpr (List.find?_eq_none.mp hfind')
      rw [hnil]
      simp [insertedRow]

theorem createRating_rowsForPair_length (db : DB) (sid uid v : Nat)
    (c : Option String) (hpair : pairsUnique db) :
    (rowsForPair (createRating db sid uid v c).2 sid uid).length = 1 := by
  rw [createRating_rowsForPair db sid uid v c hpair]
  rfl

theorem submitSeq_pairsUnique_and_one (sid uid : Nat) :
    ∀ (subs : List (Nat × Option String)) (db : DB), pairsUnique db →
      pairsUnique (submitSeq db sid uid subs) ∧
      (subs ≠ [] → (rowsForPair (submitSeq db sid uid subs) sid uid).length = 1) := by
  intro subs
  induction subs with
  | nil =>
      intro db hp
      exact ⟨hp, fun h => absurd rfl h⟩
  | cons x rest ih =>
      intro db hp
      have hstep : pairsUnique (createRating db sid uid x.1 x.2).2 :=
        createRating_pairsUnique db sid uid x.1 x.2 hp
      have hseq : submitSeq db sid uid (x :: rest)
          = submitSeq (createRating db sid uid x.1 x.2).2 sid uid rest := rfl
      obtain ⟨hp', himp⟩ := ih (createRating db sid uid x.1 x.2).2 hstep
      refine ⟨by rw [hseq]; exact hp', fun _ => ?_⟩
      cases rest with
      | nil =>
          rw [hseq]
          exact createRating_rowsForPair_length db sid uid x.1 x.2 hp
      | cons y t =>
          rw [hseq]
          exact himp (by simp)

end UpsertUniqueness

/-- C2: a rating submission is an upsert — the first submission by a user for
a store inserts a fresh row (the next `SERIAL` id, both timestamps at the
current time), every later submission overwrites that same row in place
(same id and creation time, new value/comment/updated time), exactly one row
for the pair exists after any submission, and any nonempty sequence of
submissions leaves exactly one row for the pair. -/
theorem submit_upsert_never_duplicates (db : DB) (sid uid v : Nat)
    (c : Option String) (hpair : pairsUnique db) :
    pairsUnique (createRating db sid uid v c).2 ∧
    rowsForPair (createRating db sid uid v c).2 sid uid
      = [(createRating db sid uid v c).1] ∧
    (findRatingByStoreUser db sid uid = none →
      (createRating db sid uid v c).1 = insertedRow db sid uid v c) ∧
    (∀ r0, findRatingByStoreUser db sid uid = some r0 →
      (createRating db sid uid v c).1
        = { r0 with rating := v, comment := c, updatedAt := db.now }) ∧
    (∀ subs : List (Nat × Option String), subs ≠ [] →
      (rowsForPair (submitSeq db sid uid subs) sid uid).length = 1) := by
  refine ⟨createRating_pairsUnique db sid uid v c hpair,
          createRating_rowsForPair db sid uid v c hpair, ?_, ?_, ?_⟩
  · intro hfind
    simp [createRating, hfind]
  · intro r0 hfind
    simp [createRating, hfind]
  · intro subs hsubs
    exact (submitSeq_pairsUnique_and_one sid uid subs db hpair).2 hsubs

/-- Witness for `submit_upsert_never_duplicates`: submitting 3 then 5 for the
same (user, store) pair of the concrete datastore leaves exactly one row. -/
theorem submit_upsert_never_duplicates_witness :
    pairsUnique exDb ∧
    (rowsForPair (submitSeq exDb 1 4 [(3, none), (5, none)]) 1 4).length = 1 := by
  have hp : pairsUnique exDb := by simp [pairsUnique, exDb]
  exact ⟨hp, (submit_upsert_never_duplicates exDb 1 4 3 none hp).2.2.2.2
    [(3, none), (5, none)] (by simp)⟩

/-- C3: an exception at any query of a submitRating (`createRating`) or
retractRating (`deleteRating`) transaction rolls the whole transaction back —
the committed state is exactly the pre-transaction state, never a partial
write; an exception-free run commits the full transaction result; and
deleting a rating id that does not exist returns the NotFound result (`null`)
with all persisted state unchanged. -/
theorem transaction_rollback_on_exception (db : DB) (sid uid v : Nat)
    (c : Option String) (rid k : Nat) (hk : k ≤ 3) :
    createRatingTx (some k) db sid uid v c = (none, db) ∧
    deleteRatingTx (some k) db rid = (none, db) ∧
    createRatingTx none db sid uid v c
      = (some (createRating db sid uid v c).1, (createRating db sid uid v c).2) ∧
    deleteRatingTx none db rid = deleteRating db rid ∧
    (db.ratings.find? (fun r => r.id == rid) = none →
      deleteRating db rid = (none, db)) := by
  refine ⟨?_, ?_, ?_, ?_, ?_⟩
  · interval_cases k <;>
      cases hfind : findRatingByStoreUser db sid uid <;>
        simp [createRatingTx, hfind]
  · interval_cases k <;>
      cases hfind : db.ratings.find? (fun r => r.id == rid) <;>
        simp [deleteRatingTx, hfind]
  · cases hfind : findRatingByStoreUser db sid uid <;>
      simp [createRatingTx, createRating, hfind]
  · cases hfind : db.ratings.find? (fun r => r.id == rid) <;>
      simp [deleteRatingTx, deleteRating, hfind]
  · intro h
    simp [deleteRating, h]

/-- Witness for `transaction_rollback_on_exception`: a concrete failure
point, transaction, and missing rating id. -/
theorem transaction_rollback_on_exception_witness :
    createRatingTx (some 2) exDb 1 4 5 none = (none, exDb) ∧
    deleteRatingTx (some 2) exDb 9 = (none, exDb) ∧
    deleteRating exDb 9 = (none, exDb) := by
  obtain ⟨h1, h2, -, -, h5⟩ :=
    transaction_rollback_on_exception exDb 1 4 5 none 9 2 (by norm_num)
  exact ⟨h1, h2, h5 (by simp [exDb])⟩

/-- C4: a rating submission for a nonexistent store fails with 404 NotFound,
and a submission whose value is not an integer in [1,5] fails with 400
InvalidArgument; in both cases the datastore is unchanged — for both the
fallback ratings endpoint and the monolithic server's endpoint. -/
theorem submit_rejects_missing_store_and_invalid_value (db : DB) (uid sid : Nat)
    (v : Option JsNum) (c : Option String) (hsid : sid ≠ 0) :
    (lookupStore db sid = none → isValidRatingValue v = true →
      ((ratingsPostHandler db uid (some sid) v c).1.status = 404 ∧
       (ratingsPostHandler db uid (some sid) v c).2 = db ∧
       (apiRatingsPost db uid (some sid) v).1.status = 404 ∧
       (apiRatingsPost db uid (some sid) v).2 = db)) ∧
    (isValidRatingValue v = false →
      ((ratingsPostHandler db uid (some sid) v c).1.status = 400 ∧
       (ratingsPostHandler db uid (some sid) v c).2 = db ∧
       (apiRatingsPost db uid (some sid) v).1.status = 400 ∧
       (apiRatingsPost db uid (some sid) v).2 = db)) := by
  constructor
  · intro hlook hvalid
    match v with
    | some (.int n) =>
        have hn : 1 ≤ n ∧ n ≤ 5 := by
          simpa [isValidRatingValue] using hvalid
        have hn0 : ¬ n = 0 := by omega
        have hrange : ¬ (n < 1 ∨ 5 < n) := by omega
        refine ⟨?_, ?_, ?_, ?_⟩
        · simp [ratingsPostHandler, hn, getStoreById, hlook]
        · simp [ratingsPostHandler, hn, getStoreById, hlook]
        · simp [apiRatingsPost, jsNatFalsy, jsNumFalsy, hsid, hn0, hrange, hlook]
        · simp [apiRatingsPost, jsNatFalsy, jsNumFalsy, hsid, hn0, hrange, hlook]
    | some .nonint => simp [isValidRatingValue] at hvalid
    | none => simp [isValidRatingValue] at hvalid
  · intro hinvalid
    match v with
    | some (.int n) =>
        have hn : ¬ (1 ≤ n ∧ n ≤ 5) := by
          intro hcon
          rw [show isValidRatingValue (some (.int n)) = (decide (1 ≤ n) && decide (n ≤ 5))
            from rfl] at hinvalid
          simp [hcon.1, hcon.2] at hinvalid
        by_cases hn0 : n = 0
        · subst hn0
          refine ⟨by simp [ratingsPostHandler, hn], by simp [ratingsPostHandler, hn],
            by simp [apiRatingsPost, jsNumFalsy], by simp [apiRatingsPost, jsNumFalsy]⟩
        · have hrange : n < 1 ∨ 5 < n := by omega
          refine ⟨by simp [ratingsPostHandler, hn], by simp [ratingsPostHandler, hn],
            by simp [apiRatingsPost, jsNatFalsy, jsNumFalsy, hsid, hn0, hrange],
            by simp [apiRatingsPost, jsNatFalsy, jsNumFalsy, hsid, hn0, hrange]⟩
    | some .nonint =>
        refine ⟨by simp [ratingsPostHandler], by simp [ratingsPostHandler],
          by simp [apiRatingsPost, jsNumFalsy, jsNatFalsy, hsid],
          by simp [apiRatingsPost, jsNumFalsy, jsNatFalsy, hsid]⟩
    | none =>
        refine ⟨by simp [ratingsPostHandler], by simp [ratingsPostHandler],
          by simp [apiRatingsPost, jsNumFalsy], by simp [apiRatingsPost, jsNumFalsy]⟩

/-- Witness for `submit_rejects_missing_store_and_invalid_value`: store id 99
does not exist; values 0 and 6 are rejected with no write. -/
theorem submit_rejects_missing_store_and_invalid_value_witness :
    (ratingsPostHandler exDb 4 (some 99) (some (.int 3)) none).1.status = 404 ∧
    (apiRatingsPost exDb 4 (some 99) (some (.int 0))).1.status = 400 ∧
    (ratingsPostHandler exDb 4 (some 1) (some (.int 6)) none).1.status = 400 ∧
    (ratingsPostHandler exDb 4 (some 1) (some (.int 6)) none).2 = exDb := by
  have h3 := submit_rejects_missing_store_and_invalid_value exDb 4 99
    (some (.int 3)) none (by norm_num)
  have h0 := submit_rejects_missing_store_and_invalid_value exDb 4 99
    (some (.int 0)) none (by norm_num)
  have h6 := submit_rejects_missing_store_and_invalid_value exDb 4 1
    (some (.int 6)) none (by norm_num)
  have hlook : lookupStore exDb 99 = none := by simp [lookupStore, exDb, exStore]
  refine ⟨(h3.1 hlook (by decide)).1, (h0.2 (by decide)).2.2.1,
    (h6.2 (by decide)).1, (h6.2 (by decide)).2.1⟩

/-- Store 1 carrying three ratings of values 3, 4 and 4 (by users 11, 12,
13): the exact mean is 11/3 ≈ 3.666…, whose one-decimal rounding is 3.7. -/
def exDb5 : DB :=
  { users := [exUser],
    stores := [exStore],
    ratings := [⟨1, 11, 1, 3, none, 1, 1⟩, ⟨2, 12, 1, 4, none, 2, 2⟩,
                ⟨3, 13, 1, 4, none, 3, 3⟩],
    nextUserId := 14, nextRatingId := 4, now := 10 }

/-- C5 counterexample: on ratings 3, 4, 4 the store view returns the exact
mean 11/3 — not the one-decimal rounding 37/10 = 3.7 that the claim asserts
(only the unused helper rounds). -/
theorem storeView_average_not_rounded :
    ((getStoreById exDb5 1).map (fun vw => vw.averageRating)) = some (11 / 3 : ℚ) ∧
    roundTo1 (11 / 3 : ℚ) = 37 / 10 ∧ ((11 / 3 : ℚ) ≠ 37 / 10) := by
  refine ⟨?_, ?_, by norm_num⟩
  · simp [getStoreById, exDb5, lookupStore, exStore, storeAvgOf, ratingsForStore,
      storeCountOf, sqlAvg]
  · unfold roundTo1
    rw [show ((11 : ℚ) / 3 * 10) = 110 / 3 by norm_num]
    rw [round_eq]
    norm_num

/-- C5 amended: `getStoreById`'s averageRating is the exact arithmetic mean
of the store's current rating values — 0 when none exist, never null, no
division fault — but is not rounded; the separate helper
`calculateAverageRating` (not used on the store-view path) is the function
that rounds to one decimal place and returns 0 on an empty list. -/
theorem storeView_average_exact_mean (db : DB) (sid : Nat) (vw : StoreView)
    (h : getStoreById db sid = some vw) :
    (ratingsForStore db sid = [] → vw.averageRating = 0) ∧
    (ratingsForStore db sid ≠ [] →
      vw.averageRating * ((ratingsForStore db sid).length : ℚ)
        = (((ratingsForStore db sid).map (fun r => r.rating)).sum : ℚ)) ∧
    vw.totalRatings = (ratingsForStore db sid).length ∧
    calculateAverageRating [] = 0 ∧
    (∀ vals : List Nat, vals ≠ [] →
      calculateAverageRating vals = roundTo1 ((vals.sum : ℚ) / (vals.length : ℚ))) := by
  cases hls : lookupStore db sid with
  | none => simp [getStoreById, hls] at h
  | some s =>
      rw [getStoreById, hls] at h
      obtain rfl := Option.some.inj h
      refine ⟨?_, ?_, rfl, rfl, ?_⟩
      · intro hemp
        show (storeAvgOf db sid).getD 0 = 0
        simp [storeAvgOf, hemp, sqlAvg]
      · intro hne
        have hlen : (ratingsForStore db sid).length ≠ 0 := by
          simpa [List.length_eq_zero] using hne
        have hlenq : (((ratingsForStore db sid).length : ℚ)) ≠ 0 := by
          exact_mod_cast hlen
        show (storeAvgOf db sid).getD 0 * _ = _
        rw [storeAvgOf, sqlAvg, if_neg (by simpa using hlen)]
        simp only [Option.getD_some, List.length_map]
        rw [div_mul_cancel₀ _ hlenq]
        rw [Nat.cast_list_sum, List.map_map]
        rfl
      · intro vals hvals
        have hlen : vals.length ≠ 0 := by simpa [List.length_eq_zero] using hvals
        rw [calculateAverageRating, if_neg hlen]

/-- The store view for `exDb5`: three ratings, exact mean 11/3. -/
def exView5 : StoreView :=
  { id := 1, name := "Coffee Shop", email := "coffee@example.com",
    address := some "123 Coffee Street", ownerId := some 2, ownerName := none,
    averageRating := 11 / 3, totalRatings := 3 }

/-- Witness for `storeView_average_exact_mean` at the concrete store with
ratings 3, 4, 4. -/
theorem storeView_average_exact_mean_witness :
    getStoreById exDb5 1 = some exView5 ∧
    exView5.averageRating * ((ratingsForStore exDb5 1).length : ℚ)
      = (((ratingsForStore exDb5 1).map (fun r => r.rating)).sum : ℚ) := by
  have hsome : getStoreById exDb5 1 = some exView5 := by
    simp [getStoreById, exDb5, lookupStore, exStore, exView5, storeAvgOf,
      ratingsForStore, storeCountOf, sqlAvg, lookupUser, exUser]
  exact ⟨hsome, (storeView_average_exact_mean exDb5 1 exView5 hsome).2.1
    (by simp [ratingsForStore, exDb5])⟩

/-- C6 counterexample: the fallback ratings endpoint (`ratings.routes.js`
`POST /`) answers the identical message and the identical status for a first
rating (create outcome) and for a resubmission by the same user for the same
store (update outcome) — the caller is not informed which occurred, and no
`outcome` field exists in the response shape. -/
theorem submit_outcome_not_distinguished :
    (ratingsPostHandler exDb 4 (some 1) (some (.int 3)) none).1.message
      = "Rating submitted successfully" ∧
    findRatingByStoreUser exDb 1 4 = none ∧
    (findRatingByStoreUser (ratingsPostHandler exDb 4 (some 1) (some (.int 3)) none).2 1 4).isSome
      = true ∧
    (ratingsPostHandler (ratingsPostHandler exDb 4 (some 1) (some (.int 3)) none).2
        4 (some 1) (some (.int 5)) none).1.message
      = "Rating submitted successfully" ∧
    (ratingsPostHandler (ratingsPostHandler exDb 4 (some 1) (some (.int 3)) none).2
        4 (some 1) (some (.int 5)) none).1.status
      = (ratingsPostHandler exDb 4 (some 1) (some (.int 3)) none).1.status := by
  refine ⟨rfl, rfl, rfl, rfl, rfl⟩

/-- C6 amended: the store rate endpoint (`POST /stores/:id/rate`) informs the
caller of the outcome through distinct messages, and the monolithic server's
endpoint through distinct messages and statuses (201 create / 200 update);
the fallback ratings endpoint answers the same message for both outcomes,
and no endpoint returns an `{ outcome }` field. -/
theorem store_rate_distinguishes_outcomes (db : DB) (uid sid : Nat) (n : Int)
    (c : Option String) (hn : 1 ≤ n ∧ n ≤ 5) (hsid : sid ≠ 0)
    (hs0 : (lookupStore db sid).isSome = true) :
    ((getRatingsByStoreId db sid).find? (fun r => r.userId == uid) ≠ none →
      (storeRateHandler db uid sid (some (.int n)) c).1.message
        = "Rating updated successfully") ∧
    ((getRatingsByStoreId db sid).find? (fun r => r.userId == uid) = none →
      (storeRateHandler db uid sid (some (.int n)) c).1.message
        = "Rating added successfully") ∧
    ("Rating updated successfully" : String) ≠ "Rating added successfully" ∧
    (ratingsPostHandler db uid (some sid) (some (.int n)) c).1.message
      = "Rating submitted successfully" ∧
    (apiRatingsPost db uid (some sid) (some (.int n))).1.status
      = (if findRatingByStoreUser db sid uid = none then 201 else 200) ∧
    (apiRatingsPost db uid (some sid) (some (.int n))).1.message
      = (if findRatingByStoreUser db sid uid = none then
          "Rating submitted successfully" else "Rating updated successfully") := by
  obtain ⟨s, hls⟩ := Option.isSome_iff_exists.mp hs0
  have hgets : getStoreById db sid
      = some { id := s.id, name := s.name, email := s.email, address := s.address,
               ownerId := s.ownerId,
               ownerName := (s.ownerId.bind (fun oid => lookupUser db oid)).map (fun u => u.name),
               averageRating := (storeAvgOf db sid).getD 0,
               totalRatings := storeCountOf db sid } := by
    rw [getStoreById, hls]
  have hn0 : ¬ n = 0 := by omega
  have hrange : ¬ (n < 1 ∨ 5 < n) := by omega
  have hif : ¬ (1 ≤ n → 5 < n) := by omega
  refine ⟨?_, ?_, by decide, ?_, ?_, ?_⟩
  · intro hne
    cases hfind : (getRatingsByStoreId db sid).find? (fun r => r.userId == uid) with
    | none => exact absurd hfind hne
    | some e => simp [storeRateHandler, hif, hgets, hfind]
  · intro hfind
    simp [storeRateHandler, hif, hgets, hfind]
  · cases hfind : (getRatingsByStoreId db sid).find? (fun r => r.userId == uid) with
    | none => simp [ratingsPostHandler, hif, hgets, hfind]
    | some e => simp [ratingsPostHandler, hif, hgets, hfind]
  · cases hfind : findRatingByStoreUser db sid uid with
    | none =>
        simp [apiRatingsPost, jsNatFalsy, jsNumFalsy, hsid, hn0, hrange, hls, hfind]
    | some e =>
        simp [apiRatingsPost, jsNatFalsy, jsNumFalsy, hsid, hn0, hrange, hls, hfind]
  · cases hfind : findRatingByStoreUser db sid uid with
    | none =>
        simp [apiRatingsPost, jsNatFalsy, jsNumFalsy, hsid, hn0, hrange, hls, hfind]
    | some e =>
        simp [apiRatingsPost, jsNatFalsy, jsNumFalsy, hsid, hn0, hrange, hls, hfind]

/-- Witness for `store_rate_distinguishes_outcomes`: concrete first rating. -/
theorem store_rate_distinguishes_outcomes_witness :
    (storeRateHandler exDb 4 1 (some (.int 4)) none).1.message
      = "Rating added successfully" ∧
    (apiRatingsPost exDb 4 (some 1) (some (.int 4))).1.status = 201 := by
  have h := store_rate_distinguishes_outcomes exDb 4 1 4 none
    (by norm_num) (by norm_num) (by decide)
  refine ⟨h.2.1 (by decide), ?_⟩
  have h5 := h.2.2.2.2.1
  rw [if_pos (by decide)] at h5
  exact h5

/-- The datastore after user 4's rating of store 1 has committed (the race
winner's state). -/
def exDb7 : DB := (createRating exDb 1 4 5 none).2

/-- C7 counterexample: a submission that read "no existing rating" before a
concurrent submission committed hits the `(user_id, store_id)` unique
constraint on its INSERT; the route surfaces this as the generic
`500 "Server error"`, not a 409 Conflict — though indeed no duplicate row
results (exactly one row for the pair remains). -/
theorem conflict_surfaced_as_500_not_409 :
    (ratingsPostRaced exDb exDb7 4 (some 1) (some (.int 3)) none).1.status = 500 ∧
    (ratingsPostRaced exDb exDb7 4 (some 1) (some (.int 3)) none).1.message = "Server error" ∧
    (ratingsPostRaced exDb exDb7 4 (some 1) (some (.int 3)) none).2.ratings = exDb7.ratings ∧
    (rowsForPair exDb7 1 4).length = 1 ∧
    (500 : Nat) ≠ 409 := by
  refine ⟨rfl, rfl, rfl, rfl, by norm_num⟩

/-- C7 amended: when the INSERT of a rating submission loses the
`(user_id, store_id)` uniqueness race, the datastore's constraint violation
is surfaced by the route's catch block as the generic `500 "Server error"`
response (not a structured 409 Conflict), the transaction is rolled back, and
the concurrently committed state is returned untouched — never a duplicate
row. -/
theorem conflict_rollback_no_duplicate (dbRead dbCur : DB) (uid sid : Nat)
    (n : Int) (c : Option String) (hn : 1 ≤ n ∧ n ≤ 5)
    (hstore : (lookupStore dbRead sid).isSome = true)
    (hnone : (getRatingsByStoreId dbRead sid).find? (fun r => r.userId == uid) = none)
    (hcur : (rowsForPair dbCur sid uid).isEmpty = false) :
    (ratingsPostRaced dbRead dbCur uid (some sid) (some (.int n)) c).1.status = 500 ∧
    (ratingsPostRaced dbRead dbCur uid (some sid) (some (.int n)) c).1.message
      = "Server error" ∧
    (ratingsPostRaced dbRead dbCur uid (some sid) (some (.int n)) c).2 = dbCur := by
  obtain ⟨s, hls⟩ := Option.isSome_iff_exists.mp hstore
  have hgets : getStoreById dbRead sid
      = some { id := s.id, name := s.name, email := s.email, address := s.address,
               ownerId := s.ownerId,
               ownerName := (s.ownerId.bind (fun oid => lookupUser dbRead oid)).map (fun u => u.name),
               averageRating := (storeAvgOf dbRead sid).getD 0,
               totalRatings := storeCountOf dbRead sid } := by
    rw [getStoreById, hls]
  have hif : ¬ (1 ≤ n → 5 < n) := by omega
  have hins : insertRatingChecked dbCur sid uid n.toNat c = none := by
    rw [insertRatingChecked, if_neg]
    rw [hcur]
    simp
  refine ⟨?_, ?_, ?_⟩ <;> simp [ratingsPostRaced, hif, hgets, hnone, hins]

/-- Witness for `conflict_rollback_no_duplicate` at the concrete race. -/
theorem conflict_rollback_no_duplicate_witness :
    (ratingsPostRaced exDb exDb7 4 (some 1) (some (.int 5)) none).2 = exDb7 ∧
    (ratingsPostRaced exDb exDb7 4 (some 1) (some (.int 5)) none).1.status = 500 := by
  have h := conflict_rollback_no_duplicate exDb exDb7 4 1 5 none
    (by norm_num) (by decide) (by decide) (by decide)
  exact ⟨h.2.2, h.1⟩

/-- Two users and two ratings of store 1: rating id 1 was created first but
updated last (created 1, updated 10); rating id 2 was created later but
updated earlier (created 2, updated 5). -/
def exDb8 : DB :=
  { users := [⟨4, "Normal User", "user1@example.com", "h", none, "user"⟩,
              ⟨5, "Second User", "user2@example.com", "h", none, "user"⟩],
    stores := [exStore],
    ratings := [⟨1, 4, 1, 5, none, 1, 10⟩, ⟨2, 5, 1, 4, none, 2, 5⟩],
    nextUserId := 6, nextRatingId := 3, now := 20 }

/-- C8 counterexample: `store.model.js` `getStoreRatings` — one of the two
store-ratings listings the repository ships — orders by `created_at DESC`,
so a rating created later but updated earlier comes first: its returned list
is not in most-recently-updated-first order. -/
theorem storeRatings_not_updated_desc :
    ((getStoreRatings exDb8 1).map (fun e => e.updatedAt)) = [5, 10] ∧
    ¬ ((getStoreRatings exDb8 1).Pairwise (fun a b => b.updatedAt ≤ a.updatedAt)) := by
  exact ⟨rfl, by decide⟩

theorem getRatingsByStoreId_sorted (db : DB) (sid : Nat) :
    (getRatingsByStoreId db sid).Pairwise (fun a b => b.updatedAt ≤ a.updatedAt) := by
  haveI ht : IsTotal StoreRatingEntry (fun a b => b.updatedAt ≤ a.updatedAt) :=
    ⟨fun a b => (Nat.le_total a.updatedAt b.updatedAt).symm⟩
  haveI htr : IsTrans StoreRatingEntry (fun a b => b.updatedAt ≤ a.updatedAt) :=
    ⟨fun _ _ _ hab hbc => le_trans hbc hab⟩
  exact List.sorted_insertionSort _ _

theorem getStoreRatings_sorted (db : DB) (sid : Nat) :
    (getStoreRatings db sid).Pairwise (fun a b => b.createdAt ≤ a.createdAt) := by
  haveI ht : IsTotal StoreRatingsViewEntry (fun a b => b.createdAt ≤ a.createdAt) :=
    ⟨fun a b => (Nat.le_total a.createdAt b.createdAt).symm⟩
  haveI htr : IsTrans StoreRatingsViewEntry (fun a b => b.createdAt ≤ a.createdAt) :=
    ⟨fun _ _ _ hab hbc => le_trans hbc hab⟩
  exact List.sorted_insertionSort _ _

theorem getRatingsByStoreId_userName (db : DB) (sid : Nat) :
    ∀ e ∈ getRatingsByStoreId db sid,
      ∃ u, lookupUser db e.userId = some u ∧ e.userName = u.name := by
  intro e he
  have he' : e ∈ (db.ratings.filter (fun r => r.storeId == sid)).filterMap (fun r =>
      (lookupUser db r.userId).map (fun u =>
        ({ id := r.id, storeId := r.storeId, userId := r.userId, userName := u.name,
           rating := r.rating, comment := r.comment,
           createdAt := r.createdAt, updatedAt := r.updatedAt } : StoreRatingEntry))) :=
    (List.perm_insertionSort _ _).subset he
  obtain ⟨r, _, hr2⟩ := List.mem_filterMap.mp he'
  obtain ⟨u, hu, he2⟩ := Option.map_eq_some'.mp hr2
  refine ⟨u, ?_, ?_⟩
  · rw [show e.userId = r.userId from by rw [← he2]]
    exact hu
  · rw [← he2]

theorem getStoreRatings_userName (db : DB) (sid : Nat) :
    ∀ e ∈ getStoreRatings db sid,
      ∃ u, lookupUser db e.userId = some u ∧ e.userName = u.name := by
  intro e he
  have he' : e ∈ (db.ratings.filter (fun r => r.storeId == sid)).filterMap (fun r =>
      (lookupUser db r.userId).map (fun u =>
        ({ id := r.id, userId := r.userId, userName := u.name, rating := r.rating,
           createdAt := r.createdAt, updatedAt := r.updatedAt } : StoreRatingsViewEntry))) :=
    (List.perm_insertionSort _ _).subset he
  obtain ⟨r, _, hr2⟩ := List.mem_filterMap.mp he'
  obtain ⟨u, hu, he2⟩ := Option.map_eq_some'.mp hr2
  refine ⟨u, ?_, ?_⟩
  · rw [show e.userId = r.userId from by rw [← he2]]
    exact hu
  · rw [← he2]

/-- C8 amended: the ratings list served for a store by `rating.model.js`
`getRatingsByStoreId` (the listing the store-view and ratings routes use) is
ordered most-recently-updated first, each entry carrying the rater's display
name; the repository's other listing, `store.model.js` `getStoreRatings`,
also carries the name but orders by creation time instead of update time. -/
theorem store_ratings_list_order_and_names (db : DB) (sid : Nat) :
    ((getRatingsByStoreId db sid).Pairwise (fun a b => b.updatedAt ≤ a.updatedAt)) ∧
    (∀ e ∈ getRatingsByStoreId db sid,
      ∃ u, lookupUser db e.userId = some u ∧ e.userName = u.name) ∧
    ((getStoreRatings db sid).Pairwise (fun a b => b.createdAt ≤ a.createdAt)) ∧
    (∀ e ∈ getStoreRatings db sid,
      ∃ u, lookupUser db e.userId = some u ∧ e.userName = u.name) :=
  ⟨getRatingsByStoreId_sorted db sid, getRatingsByStoreId_userName db sid,
   getStoreRatings_sorted db sid, getStoreRatings_userName db sid⟩

/-- Witness for `store_ratings_list_order_and_names` at the concrete store. -/
theorem store_ratings_list_order_and_names_witness :
    ((getRatingsByStoreId exDb8 1).Pairwise (fun a b => b.updatedAt ≤ a.updatedAt)) ∧
    (lookupUser exDb8 4).isSome = true := by
  have h := store_ratings_list_order_and_names exDb8 1
  refine ⟨h.1, ?_⟩
  obtain ⟨u, hu, -⟩ := h.2.1 ⟨1, 1, 4, "Normal User", 5, none, 1, 10⟩ (by decide)
  rw [show (⟨1, 1, 4, "Normal User", 5, none, 1, 10⟩ : StoreRatingEntry).userId = 4
    from rfl] at hu
  rw [hu]
  rfl

theorem lowerChar_idem (c : Char) : lowerChar (lowerChar c) = lowerChar c := by
  have key : ∀ q ∈ lowerPairs, lowerPairs.find? (fun r => r.fst == q.snd) = none := by decide
  cases hf : lowerPairs.find? (fun p => p.fst == c) with
  | none =>
      have h1 : lowerChar c = c := by unfold lowerChar; rw [hf]
      rw [h1]
      exact h1
  | some p =>
      have h1 : lowerChar c = p.snd := by unfold lowerChar; rw [hf]
      have hp : p ∈ lowerPairs := List.mem_of_find?_eq_some hf
      have h2 : lowerChar p.snd = p.snd := by unfold lowerChar; rw [key p hp]
      rw [h1, h2]

theorem jsToLowerCase_idem (s : String) :
    jsToLowerCase (jsToLowerCase s) = jsToLowerCase s := by
  unfold jsToLowerCase
  congr 1
  rw [show (String.mk (s.data.map lowerChar)).data = s.data.map lowerChar from rfl]
  rw [List.map_map]
  exact List.map_congr_left (fun c _ => by
    simp only [Function.comp]
    exact lowerChar_idem c)

/-- Case-insensitive distinctness of all registered users' emails. -/
def ciUniqueEmails (db : DB) : Prop :=
  db.users.Pairwise (fun a b => jsToLowerCase a.email ≠ jsToLowerCase b.email)

/-- One registered user with an all-lowercase email. -/
def exDb9 : DB :=
  { users := [⟨1, "Existing Example Registered User", "user@example.com", "h",
      none, "user"⟩],
    stores := [], ratings := [], nextUserId := 2, nextRatingId := 1, now := 0 }

/-- C9 counterexample: the monolithic server's register route checks the raw
input email with an exact match (no lowercasing), so registering an email
that differs from an existing user's only in letter case succeeds — leaving
two users whose emails are distinct yet equal ignoring case. -/
theorem register_case_variant_email_accepted :
    (apiAuthRegister exDb9 "Charlie Example Registered User" "User@example.com"
      "Password@1" none).1.status = 201 ∧
    ((apiAuthRegister exDb9 "Charlie Example Registered User" "User@example.com"
      "Password@1" none).2.users.map (fun u => u.email))
      = ["user@example.com", "User@example.com"] ∧
    jsToLowerCase "User@example.com" = jsToLowerCase "user@example.com" ∧
    "User@example.com" ≠ "user@example.com" := by
  refine ⟨by decide, by decide, by decide, by decide⟩

/-- C9 amended: only the `auth.routes.js` register path enforces
case-insensitive email uniqueness, by lowercasing the input before the
exact-match existence check and before the insert: on a datastore whose
stored emails are all lowercase and case-insensitively distinct, it rejects
(400, no write) any email whose lowercasing is already present, and every
state it produces again has all-lowercase, case-insensitively distinct
emails.  (The monolithic server's register path compares raw emails, see the
counterexample.) -/
theorem register_lowercases_email (db : DB) (vok : Bool)
    (name email password : String) (address : Option String)
    (hlower : ∀ u ∈ db.users, jsToLowerCase u.email = u.email)
    (hci : ciUniqueEmails db) :
    ((∃ u ∈ db.users, u.email = jsToLowerCase email) →
      (routeAuthRegister db true name email password address).1.status = 400 ∧
      (routeAuthRegister db true name email password address).2 = db) ∧
    ciUniqueEmails (routeAuthRegister db vok name email password address).2 ∧
    (∀ u ∈ (routeAuthRegister db vok name email password address).2.users,
      jsToLowerCase u.email = u.email) := by
  constructor
  · intro hex
    obtain ⟨u, hu, hue⟩ := hex
    have hany : db.users.any (fun u => u.email == jsToLowerCase email) = true :=
      List.any_eq_true.mpr ⟨u, hu, by simp [hue]⟩
    constructor
    · simp [routeAuthRegister, hany]
    · simp [routeAuthRegister, hany]
  · cases vok with
    | false =>
        have hdb : (routeAuthRegister db false name email password address).2 = db := by
          simp [routeAuthRegister]
        rw [hdb]
        exact ⟨hci, hlower⟩
    | true =>
        cases hany : db.users.any (fun u => u.email == jsToLowerCase email) with
        | true =>
            have hdb : (routeAuthRegister db true name email password address).2 = db := by
              simp [routeAuthRegister, hany]
            rw [hdb]
            exact ⟨hci, hlower⟩
        | false =>
            have hnot : ∀ u ∈ db.users, u.email ≠ jsToLowerCase email := by
              intro u hu
              have h' := List.any_eq_false.mp hany u hu
              simpa using h'
            have husers : (routeAuthRegister db true name email password address).2.users
                = db.users ++ [registeredRow db name (jsToLowerCase email) password address] := by
              simp [routeAuthRegister, hany]
            constructor
            · show ((routeAuthRegister db true name email password address).2.users).Pairwise _
              rw [husers, List.pairwise_append]
              refine ⟨hci, List.pairwise_singleton _ _, ?_⟩
              intro a ha b hb
              have hb' : b = registeredRow db name (jsToLowerCase email) password address :=
                List.mem_singleton.mp hb
              subst hb'
              show jsToLowerCase a.email ≠ jsToLowerCase (jsToLowerCase email)
              rw [jsToLowerCase_idem, hlower a ha]
              exact hnot a ha
            · intro u hu
              rw [husers] at hu
              rcases List.mem_append.mp hu with h | h
              · exact hlower u h
              · have hu' : u = registeredRow db name (jsToLowerCase email) password address :=
                  List.mem_singleton.mp h
                subst hu'
                exact jsToLowerCase_idem email

/-- Witness for `register_lowercases_email`: the auth route rejects a
case-variant of an existing email and keeps emails case-insensitively
distinct after a fresh registration. -/
theorem register_lowercases_email_witness :
    (routeAuthRegister exDb9 true "Taylor Example Registered User"
      "USER@example.com" "Password@1" none).1.status = 400 ∧
    ciUniqueEmails (routeAuthRegister exDb9 true "Another Example Registered"
      "Other@example.com" "Password@1" none).2 := by
  have h1 := register_lowercases_email exDb9 true "Taylor Example Registered User"
    "USER@example.com" "Password@1" none (by decide)
    (by unfold ciUniqueEmails; decide)
  have h2 := register_lowercases_email exDb9 true "Another Example Registered"
    "Other@example.com" "Password@1" none (by decide)
    (by unfold ciUniqueEmails; decide)
  refine ⟨(h1.1 ⟨⟨1, "Existing Example Registered User", "user@example.com", "h",
    none, "user"⟩, by decide, by decide⟩).1, h2.2.1⟩

/-- C10: looking up the store view of an id that references no store returns
`null` at the model layer — never a zero-filled empty view — and the HTTP
route maps that `null` to a 404 NotFound; an existing store with no ratings
instead yields a view with averageRating 0 and totalRatings 0, so the two
cases are distinguishable. -/
theorem missing_store_view_is_null_404 (db : DB) (sid : Nat) :
    (lookupStore db sid = none →
      getStoreById db sid = none ∧ routeGetStoreById db sid = 404) ∧
    (∀ s, lookupStore db sid = some s → ratingsForStore db sid = [] →
      ((getStoreById db sid).map (fun vw => (vw.averageRating, vw.totalRatings)))
        = some ((0 : ℚ), (0 : Nat))) := by
  constructor
  · intro hnone
    have hg : getStoreById db sid = none := by rw [getStoreById, hnone]
    exact ⟨hg, by rw [routeGetStoreById, hg]⟩
  · intro s hsome hemp
    rw [getStoreById, hsome]
    simp [storeAvgOf, storeCountOf, hemp, sqlAvg]

/-- Witness for `missing_store_view_is_null_404`: store id 99 is absent from
the concrete datastore (404, null view); store 1 exists without ratings and
yields the zero view. -/
theorem missing_store_view_is_null_404_witness :
    getStoreById exDb 99 = none ∧ routeGetStoreById exDb 99 = 404 ∧
    ((getStoreById exDb 1).map (fun vw => (vw.averageRating, vw.totalRatings)))
      = some ((0 : ℚ), (0 : Nat)) := by
  have h99 := missing_store_view_is_null_404 exDb 99
  have h1 := missing_store_view_is_null_404 exDb 1
  obtain ⟨ha, hb⟩ := h99.1 (by rfl)
  exact ⟨ha, hb, h1.2 exStore (by rfl) (by rfl)⟩

end StoreRating
